import Mathlib

/-
Shallow embedding of the SpoolDB weight-accounting engine.

The embedding follows the TypeScript sources:
  * `SpoolRepository`       (src/backend/src/repositories/SpoolRepository.ts)
  * `FilamentRepository`    (FilamentRepository.ts)
  * `ConsumptionRepository` (ConsumptionRepository.ts)

Modelling conventions:
  * The SQLite database is a record `DB` holding the three tables as lists,
    fresh-id counters for `lastInsertRowid`, and a logical clock `now` that
    stands for `new Date().toISOString()`; every write that stamps a
    timestamp uses the current clock value and advances the clock, which
    models the monotonically increasing wall-clock strings of the original.
  * JavaScript numbers that hold gram weights are modelled as `Int`
    (the engine only adds, subtracts, compares and takes `Math.max 0`).
  * Timestamps are `Nat` (the code only compares them via `getTime()`).
  * `undefined` optional fields are `Option`; a field that can be present,
    `null`, or absent (`empty_weight_g` in an update patch) is
    `Option (Option Int)`.
  * JavaScript truthiness (`x || d` treating `0` as absent) is modelled
    explicitly by `orFalsyInt` / `orFalsyNat`.
  * `Array.prototype.sort` is stable (ECMA-262); it is modelled by the
    stable `List.insertionSort` with the comparator's ordering.
  * Fields with no weight semantics (names, materials, colors, notes,
    `amount_m`, `print_name`, entry `type`) are elided: no claim mentions
    them and the engine never branches on them.
-/

namespace SpoolDB

/-- A row of the `spools` table (see the `Spool` interface and
`SpoolRepository` row mapping). -/
structure Spool where
  id : Nat
  filament_id : Nat
  starting_weight_g : Int
  empty_weight_g : Option Int
  weight_g : Int
  archived : Bool
  created_at : Nat
  updated_at : Nat
deriving DecidableEq

/-- A row of the `filaments` table; only the fields the weight engine
reads (`id`, `archived`) are modelled. -/
structure Filament where
  id : Nat
  archived : Bool
deriving DecidableEq

/-- A row of the `consumption_entries` table; only the fields the weight
engine reads are modelled. -/
structure ConsumptionEntry where
  id : Nat
  filament_id : Nat
  amount_g : Int
deriving DecidableEq

/-- The embedded database state. -/
structure DB where
  filaments : List Filament
  spools : List Spool
  entries : List ConsumptionEntry
  nextSpoolId : Nat
  nextEntryId : Nat
  now : Nat
deriving DecidableEq

/-- JavaScript `x || d` on an optional number: `undefined` and `0` both
fall through to the default. -/
def orFalsyInt (x : Option Int) (d : Int) : Int :=
  match x with
  | some v => if v = 0 then d else v
  | none => d

/-- JavaScript `x || d` on an optional id. -/
def orFalsyNat (x : Option Nat) (d : Nat) : Nat :=
  match x with
  | some v => if v = 0 then d else v
  | none => d

/-- Net remaining mass of a spool: `weight_g - (empty_weight_g ?? 0)`
(the quantity the auto-archive rule tests). -/
def netRemaining (s : Spool) : Int :=
  s.weight_g - s.empty_weight_g.getD 0

/-- Input of `SpoolRepository.create` (interface `CreateSpoolInput`). -/
structure CreateSpoolInput where
  filament_id : Nat
  starting_weight_g : Int
  empty_weight_g : Option Int
  weight_g : Int
deriving DecidableEq

/-- Input of `SpoolRepository.update` (interface `UpdateSpoolInput`); every
field but `id` may be absent, and `empty_weight_g` may additionally be
`null` when present. -/
structure UpdateSpoolInput where
  id : Nat
  starting_weight_g : Option Int
  empty_weight_g : Option (Option Int)
  weight_g : Option Int
  archived : Option Bool
deriving DecidableEq

namespace SpoolRepository

/-- `SpoolRepository.findByFilamentId(filamentId, includeArchived)`:
`SELECT ... WHERE filament_id = ? [AND archived = 0] ORDER BY created_at
DESC`. -/
def findByFilamentId (st : DB) (filamentId : Nat) (includeArchived : Bool) : List Spool :=
  List.insertionSort (fun a b : Spool => b.created_at ≤ a.created_at)
    (st.spools.filter (fun s => s.filament_id == filamentId && (includeArchived || !s.archived)))

/-- `input.empty_weight_g || null` in `SpoolRepository.create`: a present
`0` is falsy and is stored as `null`. -/
def emptyWeightOrNull (x : Option Int) : Option Int :=
  match x with
  | some v => if v = 0 then none else some v
  | none => none

/-- `SpoolRepository.create`: INSERT a fresh non-archived row, stamping
`created_at`/`updated_at` with the current clock. -/
def create (st : DB) (input : CreateSpoolInput) : DB :=
  let s : Spool :=
    { id := st.nextSpoolId
      filament_id := input.filament_id
      starting_weight_g := input.starting_weight_g
      empty_weight_g := emptyWeightOrNull input.empty_weight_g
      weight_g := input.weight_g
      archived := false
      created_at := st.now
      updated_at := st.now }
  { st with
    spools := st.spools ++ [s]
    nextSpoolId := st.nextSpoolId + 1
    now := st.now + 1 }

/-- The row transformation of `SpoolRepository.update` (lines 97-127):
resolve the patched numeric fields, recompute the remaining weight, and
apply the auto-archive rule when the patch did not supply `archived`. -/
def applyUpdate (now : Nat) (input : UpdateSpoolInput) (s : Spool) : Spool :=
  let newWeight := input.weight_g.getD s.weight_g
  let newEmptyWeight := input.empty_weight_g.getD s.empty_weight_g
  let remainingWeight := newWeight - newEmptyWeight.getD 0
  let shouldArchive := remainingWeight ≤ 0
  let archived :=
    match input.archived with
    | some b => b
    | none => if shouldArchive then true else s.archived
  { s with
    starting_weight_g := input.starting_weight_g.getD s.starting_weight_g
    empty_weight_g := newEmptyWeight
    weight_g := newWeight
    archived := archived
    updated_at := now }

/-- `SpoolRepository.update`: null when the id does not exist (modelled as
an unchanged state), otherwise UPDATE the matching row and stamp
`updated_at`. -/
def update (st : DB) (input : UpdateSpoolInput) : DB :=
  if st.spools.any (fun s => s.id == input.id) then
    { st with
      spools := st.spools.map (fun s => if s.id = input.id then applyUpdate st.now input s else s)
      now := st.now + 1 }
  else st

/-- `SpoolRepository.archiveByFilamentId`: `UPDATE spools SET archived = ?,
updated_at = ? WHERE filament_id = ?` — no weight check. -/
def archiveByFilamentId (st : DB) (filamentId : Nat) (archived : Bool) : DB :=
  { st with
    spools := st.spools.map (fun s =>
      if s.filament_id = filamentId then { s with archived := archived, updated_at := st.now } else s)
    now := st.now + 1 }

end SpoolRepository

/-- Input of `FilamentRepository.update`; only the fields the weight
engine reads are modelled. -/
structure UpdateFilamentInput where
  id : Nat
  archived : Option Bool
deriving DecidableEq

namespace FilamentRepository

/-- `FilamentRepository.calculateRemainingWeight`: `SELECT
COALESCE(SUM(weight_g), 0) FROM spools WHERE filament_id = ? AND archived
= 0`. -/
def calculateRemainingWeight (st : DB) (filamentId : Nat) : Int :=
  ((st.spools.filter (fun s => s.filament_id == filamentId && !s.archived)).map
    (fun s => s.weight_g)).sum

/-- `FilamentRepository.update` restricted to the archived flag: null when
the filament does not exist; otherwise UPDATE the row, and when the patch
sets `archived` to true, cascade to every owned spool. -/
def update (st : DB) (input : UpdateFilamentInput) : DB :=
  if st.filaments.any (fun f => f.id == input.id) then
    let st1 := { st with
      filaments := st.filaments.map (fun f =>
        if f.id = input.id then { f with archived := input.archived.getD f.archived } else f) }
    if input.archived = some true then
      SpoolRepository.archiveByFilamentId st1 input.id true
    else st1
  else st

/-- `FilamentRepository.archive`: `update({id, archived})`, then archive
all owned spools (again) when archiving. -/
def archive (st : DB) (id : Nat) (archived : Bool) : DB :=
  let st1 := update st { id := id, archived := some archived }
  if archived then SpoolRepository.archiveByFilamentId st1 id true else st1

end FilamentRepository

/-- Input of `ConsumptionRepository.create` (interface
`CreateConsumptionInput`), weight-relevant fields only. -/
structure CreateConsumptionInput where
  filament_id : Nat
  amount_g : Int
deriving DecidableEq

/-- Input of `ConsumptionRepository.update` (interface
`UpdateConsumptionInput`), weight-relevant fields only. -/
structure UpdateConsumptionInput where
  id : Nat
  filament_id : Option Nat
  amount_g : Option Int
deriving DecidableEq

namespace ConsumptionRepository

/-- `ConsumptionRepository.findById`: the SELECT joins the entry with its
filament (and its material/color), so it yields a row only when the
entry's filament also exists. -/
def findById (st : DB) (id : Nat) : Option ConsumptionEntry :=
  match st.entries.find? (fun e => e.id == id) with
  | none => none
  | some e => if st.filaments.any (fun f => f.id == e.filament_id) then some e else none

/-- The update patch `{ id, weight_g }` used by every spool write of the
accountant (all other fields left `undefined`). -/
def weightPatch (id : Nat) (w : Int) : UpdateSpoolInput :=
  { id := id
    starting_weight_g := none
    empty_weight_g := none
    weight_g := some w
    archived := none }

/-- Lines 15-29 of `deductFromFilament`: the ordered candidate list — the
used spools (weight below starting weight) sorted by `updated_at`
descending when any exist, otherwise all active spools sorted by
`created_at` descending. -/
def candidateSpools (st : DB) (filamentId : Nat) : List Spool :=
  let spools := SpoolRepository.findByFilamentId st filamentId false
  let usedSpools := spools.filter (fun s => s.weight_g < s.starting_weight_g)
  if usedSpools.length > 0 then
    List.insertionSort (fun a b : Spool => b.updated_at ≤ a.updated_at) usedSpools
  else
    List.insertionSort (fun a b : Spool => b.created_at ≤ a.created_at) spools

/-- The carry loop of `deductFromFilament` (lines 44-58): walk the
remaining candidates, subtracting from or zeroing each until the
remainder reaches zero or the list is exhausted.  The loop reads the
snapshot weights captured before the writes, exactly as the source
iterates over the fetched array. -/
def deductLoop (st : DB) (spools : List Spool) (remaining : Int) : DB :=
  match spools with
  | [] => st
  | spool :: rest =>
    if remaining ≤ 0 then st
    else if spool.weight_g ≥ remaining then
      deductLoop (SpoolRepository.update st (weightPatch spool.id (max 0 (spool.weight_g - remaining)))) rest 0
    else
      deductLoop (SpoolRepository.update st (weightPatch spool.id 0)) rest (remaining - spool.weight_g)

/-- `ConsumptionRepository.deductFromFilament`: nothing when the filament
has no active spools; otherwise reduce the primary target, and on
overflow zero it and run the carry loop over the remaining candidates
sorted by weight descending. -/
def deductFromFilament (st : DB) (filamentId : Nat) (amountG : Int) : DB :=
  match SpoolRepository.findByFilamentId st filamentId false with
  | [] => st
  | _ :: _ =>
    match candidateSpools st filamentId with
    | [] => st
    | targetSpool :: restTargets =>
      if targetSpool.weight_g ≥ amountG then
        SpoolRepository.update st (weightPatch targetSpool.id (max 0 (targetSpool.weight_g - amountG)))
      else
        let st1 := SpoolRepository.update st (weightPatch targetSpool.id 0)
        let remaining := amountG - targetSpool.weight_g
        if remaining > 0 then
          deductLoop st1
            (List.insertionSort (fun a b : Spool => b.weight_g ≤ a.weight_g) restTargets)
            remaining
        else st1

/-- `deductFromFilament` as reached with a JavaScript `undefined` amount
(the `input.amount_g!` call in `update` when the patch omits the amount):
`weight_g >= undefined` is false, so the primary target is zeroed, and
`remaining` becomes `NaN`, so `remaining > 0` is false and the carry loop
never runs. -/
def deductFromFilamentUndefined (st : DB) (filamentId : Nat) : DB :=
  match SpoolRepository.findByFilamentId st filamentId false with
  | [] => st
  | _ :: _ =>
    match candidateSpools st filamentId with
    | [] => st
    | targetSpool :: _ =>
      SpoolRepository.update st (weightPatch targetSpool.id 0)

/-- The call `deductFromFilament(fid, input.amount_g!)` with the amount
as it appears in the patch: a present amount behaves normally, an absent
one follows the `undefined` execution path. -/
def deductFromFilamentJS (st : DB) (filamentId : Nat) (amountG : Option Int) : DB :=
  match amountG with
  | some a => deductFromFilament st filamentId a
  | none => deductFromFilamentUndefined st filamentId

/-- `ConsumptionRepository.restoreToFilament`: create a brand-new spool
when the filament has no active spools, otherwise add the full amount to
the lightest active spool. -/
def restoreToFilament (st : DB) (filamentId : Nat) (amountG : Int) : DB :=
  match SpoolRepository.findByFilamentId st filamentId false with
  | [] =>
    SpoolRepository.create st
      { filament_id := filamentId
        starting_weight_g := amountG
        empty_weight_g := none
        weight_g := amountG }
  | s :: rest =>
    match List.insertionSort (fun a b : Spool => a.weight_g ≤ b.weight_g) (s :: rest) with
    | [] => st
    | lightestSpool :: _ =>
      SpoolRepository.update st (weightPatch lightestSpool.id (lightestSpool.weight_g + amountG))

/-- `ConsumptionRepository.create`: INSERT the entry, then deduct its
amount from the filament's spools. -/
def create (st : DB) (input : CreateConsumptionInput) : DB :=
  let e : ConsumptionEntry :=
    { id := st.nextEntryId
      filament_id := input.filament_id
      amount_g := input.amount_g }
  let st1 := { st with entries := st.entries ++ [e], nextEntryId := st.nextEntryId + 1 }
  deductFromFilament st1 input.filament_id input.amount_g

/-- The truthy guard `input.filament_id && input.filament_id !==
existing.filament_id` of `ConsumptionRepository.update`. -/
def filamentChangedGuard (inputFid : Option Nat) (existingFid : Nat) : Bool :=
  match inputFid with
  | some f => f != 0 && f != existingFid
  | none => false

/-- `ConsumptionRepository.update` (lines 201-250): null when the entry is
not found; otherwise UPDATE the entry row (with the `||` falsy
coalescing of the source), apply the weight difference to
`input.filament_id || existing.filament_id`, and, when the filament
changed, restore the old amount to the old filament and deduct
`input.amount_g!` (possibly `undefined`) from the new one. -/
def update (st : DB) (input : UpdateConsumptionInput) : DB :=
  match findById st input.id with
  | none => st
  | some existing =>
    let weightDiff : Int :=
      match input.amount_g with
      | some a => a - existing.amount_g
      | none => 0
    let newFilamentId := orFalsyNat input.filament_id existing.filament_id
    let newAmount := orFalsyInt input.amount_g existing.amount_g
    let st1 := { st with
      entries := st.entries.map (fun e =>
        if e.id = input.id then { e with filament_id := newFilamentId, amount_g := newAmount } else e) }
    let st2 :=
      if weightDiff ≠ 0 then
        let filamentId := orFalsyNat input.filament_id existing.filament_id
        if weightDiff > 0 then deductFromFilament st1 filamentId weightDiff
        else restoreToFilament st1 filamentId (-weightDiff)
      else st1
    if filamentChangedGuard input.filament_id existing.filament_id then
      let st3 := restoreToFilament st2 existing.filament_id existing.amount_g
      deductFromFilamentJS st3 (input.filament_id.getD 0) input.amount_g
    else st2

/-- `ConsumptionRepository.delete`: false when the entry is not found;
otherwise restore the entry's amount to its filament, then DELETE the
row. -/
def delete (st : DB) (id : Nat) : DB :=
  match findById st id with
  | none => st
  | some entry =>
    let st1 := restoreToFilament st entry.filament_id entry.amount_g
    { st1 with entries := st1.entries.filter (fun e => e.id != id) }

/-- Association-list lookup of a spool id in a list of `(id, weight)`
assignments. -/
def lookupId (l : List (Nat × Int)) (i : Nat) : Option Int :=
  match l with
  | [] => none
  | (j, w) :: rest => if j = i then some w else lookupId rest i

/-- The per-candidate weight assignments of the carry pass, written from
the allocation description: walk the candidates in the given order with
the carried remainder, recording `max 0 (weight - remainder)` for a
candidate that covers the remainder and `0` for one that is emptied,
until the remainder reaches zero or the candidates are exhausted. -/
def carryWeights (remaining : Int) : List Spool → List (Nat × Int)
  | [] => []
  | s :: rest =>
    if remaining ≤ 0 then []
    else if s.weight_g ≥ remaining then
      (s.id, max 0 (s.weight_g - remaining)) :: carryWeights 0 rest
    else
      (s.id, 0) :: carryWeights (remaining - s.weight_g) rest

/-- Claim C4's reading of the carry pass, written from the claim's words:
the carried remainder is applied to ALL non-archived spools of the
filament except the primary target, in descending order of current
weight.  (The source instead restricts the carry pass to the rest of the
selected candidate list, i.e. to the other used spools whenever any used
spool exists.) -/
def deductAllActiveClaimed (st : DB) (filamentId : Nat) (amountG : Int) : DB :=
  let active := SpoolRepository.findByFilamentId st filamentId false
  match candidateSpools st filamentId with
  | [] => st
  | p :: _ =>
    if p.weight_g ≥ amountG then
      SpoolRepository.update st (weightPatch p.id (max 0 (p.weight_g - amountG)))
    else
      let st1 := SpoolRepository.update st (weightPatch p.id 0)
      deductLoop st1
        (List.insertionSort (fun a b : Spool => b.weight_g ≤ a.weight_g)
          (active.filter (fun s => s.id != p.id)))
        (amountG - p.weight_g)

/-- Claim C1's reading of `update`, written from the claim's words: the
delta from an amount change is applied against the OLD filament, and the
filament-change pass restores the old amount to the old filament and
then deducts the new amount (the entry's amount after the update,
defaulting to the old amount) from the new filament. -/
def updateAdjustClaimed (st : DB) (input : UpdateConsumptionInput) : DB :=
  match findById st input.id with
  | none => st
  | some existing =>
    let newAmount := input.amount_g.getD existing.amount_g
    let newFilamentId := input.filament_id.getD existing.filament_id
    let st1 := { st with
      entries := st.entries.map (fun e =>
        if e.id = input.id then { e with filament_id := newFilamentId, amount_g := newAmount } else e) }
    let delta := newAmount - existing.amount_g
    let st2 :=
      if delta > 0 then deductFromFilament st1 existing.filament_id delta
      else if delta < 0 then restoreToFilament st1 existing.filament_id (-delta)
      else st1
    if newFilamentId ≠ existing.filament_id then
      deductFromFilament (restoreToFilament st2 existing.filament_id existing.amount_g)
        newFilamentId newAmount
    else st2

/-- The amended description of `update`'s weight adjustments: the delta
from an amount change targets the filament id resulting from the update
(the new filament when the patch changes it); the filament-change pass
restores the old amount to the old filament and then runs the deduction
against the new filament with the patch's amount — with the `undefined`
execution path when the patch supplies no amount. -/
def updateAdjustAmended (st : DB) (input : UpdateConsumptionInput) : DB :=
  match findById st input.id with
  | none => st
  | some existing =>
    let targetFilamentId := input.filament_id.getD existing.filament_id
    let newAmount := input.amount_g.getD existing.amount_g
    let st1 := { st with
      entries := st.entries.map (fun e =>
        if e.id = input.id then { e with filament_id := targetFilamentId, amount_g := newAmount } else e) }
    let delta := newAmount - existing.amount_g
    let st2 :=
      if delta > 0 then deductFromFilament st1 targetFilamentId delta
      else if delta < 0 then restoreToFilament st1 targetFilamentId (-delta)
      else st1
    match input.filament_id with
    | none => st2
    | some f =>
      if f = existing.filament_id then st2
      else
        let st3 := restoreToFilament st2 existing.filament_id existing.amount_g
        match input.amount_g with
        | some a => deductFromFilament st3 f a
        | none => deductFromFilamentUndefined st3 f

end ConsumptionRepository

/-! Concrete database states used to instantiate the theorems and to
exhibit counterexamples. -/

/-- The end-to-end scenario of the spec: one filament with a single
active spool, `startingWeight = 1000`, `emptyWeight = 250`,
`weight = 1000`. -/
def scenario751DB : DB :=
  { filaments := [{ id := 1, archived := false }]
    spools := [{ id := 1, filament_id := 1, starting_weight_g := 1000, empty_weight_g := some 250,
                 weight_g := 1000, archived := false, created_at := 0, updated_at := 0 }]
    entries := []
    nextSpoolId := 2, nextEntryId := 1, now := 1 }

/-- Two used spools of one filament: spool 1 (weight 100 of 200, updated
most recently) and spool 2 (weight 10 of 200). -/
def twoUsedSpoolsDB : DB :=
  { filaments := [{ id := 1, archived := false }]
    spools := [{ id := 1, filament_id := 1, starting_weight_g := 200, empty_weight_g := none,
                 weight_g := 100, archived := false, created_at := 0, updated_at := 5 },
               { id := 2, filament_id := 1, starting_weight_g := 200, empty_weight_g := none,
                 weight_g := 10, archived := false, created_at := 1, updated_at := 3 }]
    entries := []
    nextSpoolId := 3, nextEntryId := 1, now := 6 }

/-- Spool A of the spec's deduct-targeting example: weight 100 of 100,
created first. -/
def spoolA : Spool :=
  { id := 1, filament_id := 1, starting_weight_g := 100, empty_weight_g := none,
    weight_g := 100, archived := false, created_at := 1, updated_at := 1 }

/-- Spool B of the spec's deduct-targeting example: weight 80 of 100,
created later, hence used. -/
def spoolB : Spool :=
  { id := 2, filament_id := 1, starting_weight_g := 100, empty_weight_g := none,
    weight_g := 80, archived := false, created_at := 2, updated_at := 3 }

/-- The spec's deduct-targeting example: spools A and B of one filament. -/
def targetingExampleDB : DB :=
  { filaments := [{ id := 1, archived := false }]
    spools := [spoolA, spoolB]
    entries := []
    nextSpoolId := 3, nextEntryId := 1, now := 4 }

/-- One unused spool (spool 1, weight 100 of 100) next to one used spool
(spool 2, weight 20 of 100) of the same filament. -/
def usedAndUnusedDB : DB :=
  { filaments := [{ id := 1, archived := false }]
    spools := [{ id := 1, filament_id := 1, starting_weight_g := 100, empty_weight_g := none,
                 weight_g := 100, archived := false, created_at := 1, updated_at := 1 },
               { id := 2, filament_id := 1, starting_weight_g := 100, empty_weight_g := none,
                 weight_g := 20, archived := false, created_at := 2, updated_at := 3 }]
    entries := []
    nextSpoolId := 3, nextEntryId := 1, now := 4 }

/-- Two filaments with one unused spool each, and one consumption entry
of 50 g against filament 1. -/
def moveEntryDB : DB :=
  { filaments := [{ id := 1, archived := false }, { id := 2, archived := false }]
    spools := [{ id := 1, filament_id := 1, starting_weight_g := 100, empty_weight_g := none,
                 weight_g := 100, archived := false, created_at := 0, updated_at := 0 },
               { id := 2, filament_id := 2, starting_weight_g := 100, empty_weight_g := none,
                 weight_g := 100, archived := false, created_at := 1, updated_at := 1 }]
    entries := [{ id := 1, filament_id := 1, amount_g := 50 }]
    nextSpoolId := 3, nextEntryId := 2, now := 2 }

/-- The spec's restore-targeting example: spool 1 = A (weight 100) and
spool 2 = B (weight 50), both active. -/
def restoreExampleDB : DB :=
  { filaments := [{ id := 1, archived := false }]
    spools := [{ id := 1, filament_id := 1, starting_weight_g := 100, empty_weight_g := none,
                 weight_g := 100, archived := false, created_at := 0, updated_at := 0 },
               { id := 2, filament_id := 1, starting_weight_g := 100, empty_weight_g := none,
                 weight_g := 50, archived := false, created_at := 1, updated_at := 1 }]
    entries := []
    nextSpoolId := 3, nextEntryId := 1, now := 2 }

/-- An archived, emptied spool next to an active one, for exercising the
restore-skips-archived property. -/
def archivedSpoolDB : DB :=
  { filaments := [{ id := 1, archived := false }]
    spools := [{ id := 1, filament_id := 1, starting_weight_g := 100, empty_weight_g := none,
                 weight_g := 0, archived := true, created_at := 0, updated_at := 2 },
               { id := 2, filament_id := 1, starting_weight_g := 100, empty_weight_g := none,
                 weight_g := 60, archived := false, created_at := 1, updated_at := 1 }]
    entries := []
    nextSpoolId := 3, nextEntryId := 1, now := 3 }

/-- A filament with no spools at all. -/
def emptyFilamentDB : DB :=
  { filaments := [{ id := 1, archived := false }]
    spools := []
    entries := []
    nextSpoolId := 1, nextEntryId := 1, now := 0 }

/-- The single active spool of `singleSpoolDB`: weight 100 of 100, no
tare. -/
def soloSpool : Spool :=
  { id := 1, filament_id := 1, starting_weight_g := 100, empty_weight_g := none,
    weight_g := 100, archived := false, created_at := 0, updated_at := 0 }

/-- One filament with a single active spool of weight 100 (no tare). -/
def singleSpoolDB : DB :=
  { filaments := [{ id := 1, archived := false }]
    spools := [soloSpool]
    entries := []
    nextSpoolId := 2, nextEntryId := 1, now := 1 }

/-- The lighter spool of `restoreExampleDB` (spool B, weight 50). -/
def lightSpoolB : Spool :=
  { id := 2, filament_id := 1, starting_weight_g := 100, empty_weight_g := none,
    weight_g := 50, archived := false, created_at := 1, updated_at := 1 }

/-- The primary target of the `threeUsedSpoolsDB` carry example: weight
50 of 100, most recently updated. -/
def carryPrimary : Spool :=
  { id := 1, filament_id := 1, starting_weight_g := 100, empty_weight_g := none,
    weight_g := 50, archived := false, created_at := 0, updated_at := 5 }

/-- Second used spool of the carry example: weight 30 of 100. -/
def carrySecond : Spool :=
  { id := 2, filament_id := 1, starting_weight_g := 100, empty_weight_g := none,
    weight_g := 30, archived := false, created_at := 1, updated_at := 3 }

/-- Third used spool of the carry example: weight 40 of 100. -/
def carryThird : Spool :=
  { id := 3, filament_id := 1, starting_weight_g := 100, empty_weight_g := none,
    weight_g := 40, archived := false, created_at := 2, updated_at := 2 }

/-- Three used spools of one filament, for exercising the carry pass. -/
def threeUsedSpoolsDB : DB :=
  { filaments := [{ id := 1, archived := false }]
    spools := [carryPrimary, carrySecond, carryThird]
    entries := []
    nextSpoolId := 4, nextEntryId := 1, now := 6 }

/-- A spool with tare weight 50 and gross weight 100. -/
def tareSpool : Spool :=
  { id := 1, filament_id := 1, starting_weight_g := 1000, empty_weight_g := some 50,
    weight_g := 100, archived := false, created_at := 0, updated_at := 0 }

/-- One filament with the single tare-weight spool `tareSpool`. -/
def tareSpoolDB : DB :=
  { filaments := [{ id := 1, archived := false }]
    spools := [tareSpool]
    entries := []
    nextSpoolId := 2, nextEntryId := 1, now := 1 }

/-- The spec's auto-archive example patch: set `weight` to 50 (equal to
the tare weight) without supplying `archived`. -/
def autoArchivePatch : UpdateSpoolInput :=
  { id := 1, starting_weight_g := none, empty_weight_g := none,
    weight_g := some 50, archived := none }

/-- A patch that moves entry 1 to filament 2 and raises its amount to
60 g. -/
def movePatch : UpdateConsumptionInput :=
  { id := 1, filament_id := some 2, amount_g := some 60 }

/-! Helper lemmas about the embedded operations. -/

theorem mem_findByFilamentId {st : DB} {fid : Nat} {s : Spool} :
    s ∈ SpoolRepository.findByFilamentId st fid false ↔
      s ∈ st.spools ∧ s.filament_id = fid ∧ s.archived = false := by
  simp [SpoolRepository.findByFilamentId, List.mem_insertionSort, List.mem_filter, and_assoc]

theorem head_insertionSort_descNat {α : Type} (key : α → Nat) (l : List α) (b : α)
    (hb : b ∈ l) (hmax : ∀ s ∈ l, s ≠ b → key s < key b) :
    (List.insertionSort (fun x y => key y ≤ key x) l).head? = some b := by
  haveI htot : IsTotal α (fun x y => key y ≤ key x) := ⟨fun x y => le_total (key y) (key x)⟩
  haveI htrans : IsTrans α (fun x y => key y ≤ key x) :=
    ⟨fun x y z hxy hyz => le_trans hyz hxy⟩
  have hsorted := List.sorted_insertionSort (fun x y => key y ≤ key x) l
  cases hs : List.insertionSort (fun x y => key y ≤ key x) l with
  | nil =>
    have : b ∈ List.insertionSort (fun x y => key y ≤ key x) l :=
      (List.mem_insertionSort _).mpr hb
    rw [hs] at this
    cases this
  | cons h t =>
    have hmem : b ∈ h :: t := by
      rw [← hs]
      exact (List.mem_insertionSort _).mpr hb
    rcases List.mem_cons.mp hmem with hbh | hbt
    · rw [hbh]
      rfl
    · rw [hs] at hsorted
      have hle : key b ≤ key h := List.rel_of_sorted_cons hsorted b hbt
      have hh : h ∈ l := (List.mem_insertionSort _).mp (hs ▸ List.mem_cons_self h t)
      by_cases hhb : h = b
      · rw [hhb]
        rfl
      · exact absurd hle (not_le.mpr (hmax h hh hhb))

theorem head_insertionSort_ascInt {α : Type} (key : α → Int) (l : List α) (b : α)
    (hb : b ∈ l) (hmin : ∀ s ∈ l, s ≠ b → key b < key s) :
    (List.insertionSort (fun x y => key x ≤ key y) l).head? = some b := by
  haveI htot : IsTotal α (fun x y => key x ≤ key y) := ⟨fun x y => le_total (key x) (key y)⟩
  haveI htrans : IsTrans α (fun x y => key x ≤ key y) :=
    ⟨fun x y z hxy hyz => le_trans hxy hyz⟩
  have hsorted := List.sorted_insertionSort (fun x y => key x ≤ key y) l
  cases hs : List.insertionSort (fun x y => key x ≤ key y) l with
  | nil =>
    have : b ∈ List.insertionSort (fun x y => key x ≤ key y) l :=
      (List.mem_insertionSort _).mpr hb
    rw [hs] at this
    cases this
  | cons h t =>
    have hmem : b ∈ h :: t := by
      rw [← hs]
      exact (List.mem_insertionSort _).mpr hb
    rcases List.mem_cons.mp hmem with hbh | hbt
    · rw [hbh]
      rfl
    · rw [hs] at hsorted
      have hle : key h ≤ key b := List.rel_of_sorted_cons hsorted b hbt
      have hh : h ∈ l := (List.mem_insertionSort _).mp (hs ▸ List.mem_cons_self h t)
      by_cases hhb : h = b
      · rw [hhb]
        rfl
      · exact absurd hle (not_le.mpr (hmin h hh hhb))

theorem update_spools_of_mem {st : DB} {input : UpdateSpoolInput}
    (h : ∃ s ∈ st.spools, s.id = input.id) :
    (SpoolRepository.update st input).spools =
      st.spools.map (fun s => if s.id = input.id then SpoolRepository.applyUpdate st.now input s else s) := by
  obtain ⟨s, hs, hid⟩ := h
  have hany : st.spools.any (fun s => s.id == input.id) = true :=
    List.any_eq_true.mpr ⟨s, hs, by simp [hid]⟩
  simp [SpoolRepository.update, hany]

theorem update_entries (st : DB) (input : UpdateSpoolInput) :
    (SpoolRepository.update st input).entries = st.entries := by
  unfold SpoolRepository.update
  split <;> rfl

theorem update_filaments (st : DB) (input : UpdateSpoolInput) :
    (SpoolRepository.update st input).filaments = st.filaments := by
  unfold SpoolRepository.update
  split <;> rfl

theorem update_nextEntryId (st : DB) (input : UpdateSpoolInput) :
    (SpoolRepository.update st input).nextEntryId = st.nextEntryId := by
  unfold SpoolRepository.update
  split <;> rfl

theorem update_spool_ids (st : DB) (input : UpdateSpoolInput) :
    (SpoolRepository.update st input).spools.map (fun s => s.id) = st.spools.map (fun s => s.id) := by
  unfold SpoolRepository.update
  split
  · rw [List.map_map]
    refine List.map_congr_left (fun s _ => ?_)
    by_cases h : s.id = input.id <;> simp [h, SpoolRepository.applyUpdate]
  · rfl

theorem candidateSpools_nil_of_no_active {st : DB} {fid : Nat}
    (h : SpoolRepository.findByFilamentId st fid false = []) :
    ConsumptionRepository.candidateSpools st fid = [] := by
  simp [ConsumptionRepository.candidateSpools, h]

theorem mem_candidateSpools {st : DB} {fid : Nat} {s : Spool}
    (h : s ∈ ConsumptionRepository.candidateSpools st fid) :
    s ∈ st.spools ∧ s.filament_id = fid ∧ s.archived = false := by
  simp only [ConsumptionRepository.candidateSpools] at h
  split at h
  · exact mem_findByFilamentId.mp (List.mem_filter.mp ((List.mem_insertionSort _).mp h)).1
  · exact mem_findByFilamentId.mp ((List.mem_insertionSort _).mp h)

theorem candidateSpools_head_of_used {st : DB} {fid : Nat} {b : Spool}
    (hb : b ∈ SpoolRepository.findByFilamentId st fid false)
    (hused : b.weight_g < b.starting_weight_g)
    (hmax : ∀ s ∈ SpoolRepository.findByFilamentId st fid false,
        s.weight_g < s.starting_weight_g → s ≠ b → s.updated_at < b.updated_at) :
    (ConsumptionRepository.candidateSpools st fid).head? = some b := by
  simp only [ConsumptionRepository.candidateSpools]
  have hbmem : b ∈ (SpoolRepository.findByFilamentId st fid false).filter
      (fun s => decide (s.weight_g < s.starting_weight_g)) :=
    List.mem_filter.mpr ⟨hb, by simpa using hused⟩
  rw [if_pos (List.length_pos.mpr (List.ne_nil_of_mem hbmem))]
  exact head_insertionSort_descNat (fun s => s.updated_at) _ b hbmem
    (fun s hs hne =>
      hmax s (List.mem_filter.mp hs).1 (by simpa using (List.mem_filter.mp hs).2) hne)

theorem candidateSpools_head_of_unused {st : DB} {fid : Nat} {b : Spool}
    (hb : b ∈ SpoolRepository.findByFilamentId st fid false)
    (hnone : ∀ s ∈ SpoolRepository.findByFilamentId st fid false,
        ¬(s.weight_g < s.starting_weight_g))
    (hmax : ∀ s ∈ SpoolRepository.findByFilamentId st fid false,
        s ≠ b → s.created_at < b.created_at) :
    (ConsumptionRepository.candidateSpools st fid).head? = some b := by
  simp only [ConsumptionRepository.candidateSpools]
  have hfilter : (SpoolRepository.findByFilamentId st fid false).filter
      (fun s => decide (s.weight_g < s.starting_weight_g)) = [] := by
    rw [List.filter_eq_nil_iff]
    intro s hs
    simpa using hnone s hs
  rw [hfilter]
  simp only [List.length_nil, gt_iff_lt, lt_irrefl, if_false]
  exact head_insertionSort_descNat (fun s => s.created_at) _ b hb hmax

theorem deduct_eq_update_of_sufficient {st : DB} {fid : Nat} {a : Int} {p : Spool}
    {rest : List Spool}
    (hcand : ConsumptionRepository.candidateSpools st fid = p :: rest)
    (hge : a ≤ p.weight_g) :
    ConsumptionRepository.deductFromFilament st fid a =
      SpoolRepository.update st (ConsumptionRepository.weightPatch p.id (max 0 (p.weight_g - a))) := by
  obtain ⟨x, xs, hact⟩ : ∃ x xs, SpoolRepository.findByFilamentId st fid false = x :: xs := by
    cases h : SpoolRepository.findByFilamentId st fid false with
    | nil =>
      rw [candidateSpools_nil_of_no_active h] at hcand
      cases hcand
    | cons x xs => exact ⟨x, xs, rfl⟩
  unfold ConsumptionRepository.deductFromFilament
  rw [hact, hcand]
  simp only [ge_iff_le, hge, if_true]

theorem deduct_eq_loop_of_insufficient {st : DB} {fid : Nat} {a : Int} {p : Spool}
    {rest : List Spool}
    (hcand : ConsumptionRepository.candidateSpools st fid = p :: rest)
    (hlt : p.weight_g < a) :
    ConsumptionRepository.deductFromFilament st fid a =
      ConsumptionRepository.deductLoop
        (SpoolRepository.update st (ConsumptionRepository.weightPatch p.id 0))
        (List.insertionSort (fun x y : Spool => y.weight_g ≤ x.weight_g) rest)
        (a - p.weight_g) := by
  obtain ⟨x, xs, hact⟩ : ∃ x xs, SpoolRepository.findByFilamentId st fid false = x :: xs := by
    cases h : SpoolRepository.findByFilamentId st fid false with
    | nil =>
      rw [candidateSpools_nil_of_no_active h] at hcand
      cases hcand
    | cons x xs => exact ⟨x, xs, rfl⟩
  unfold ConsumptionRepository.deductFromFilament
  rw [hact, hcand]
  simp only [ge_iff_le, not_le.mpr hlt, if_false, gt_iff_lt, sub_pos.mpr hlt, if_true]

theorem applyUpdate_weightPatch (now : Nat) (i : Nat) (w : Int) (s : Spool) :
    SpoolRepository.applyUpdate now (ConsumptionRepository.weightPatch i w) s =
      { s with weight_g := w
               archived := if w - s.empty_weight_g.getD 0 ≤ 0 then true else s.archived
               updated_at := now } := rfl

theorem carryWeights_nonpos {rem : Int} (l : List Spool) (h : rem ≤ 0) :
    ConsumptionRepository.carryWeights rem l = [] := by
  cases l with
  | nil => rfl
  | cons a rest => simp [ConsumptionRepository.carryWeights, h]

theorem lookupId_eq_none_of_not_mem {l : List Spool} {i : Nat}
    (h : i ∉ l.map (fun s => s.id)) (rem : Int) :
    ConsumptionRepository.lookupId (ConsumptionRepository.carryWeights rem l) i = none := by
  induction l generalizing rem with
  | nil => rfl
  | cons a rest ih =>
    simp only [List.map_cons, List.mem_cons, not_or] at h
    obtain ⟨h1, h2⟩ := h
    unfold ConsumptionRepository.carryWeights
    split
    · rfl
    · split
      · unfold ConsumptionRepository.lookupId
        rw [if_neg (fun he => h1 he.symm)]
        exact ih h2 0
      · unfold ConsumptionRepository.lookupId
        rw [if_neg (fun he => h1 he.symm)]
        exact ih h2 _

theorem deductLoop_entries (l : List Spool) (st : DB) (rem : Int) :
    (ConsumptionRepository.deductLoop st l rem).entries = st.entries := by
  induction l generalizing st rem with
  | nil => rfl
  | cons a rest ih =>
    unfold ConsumptionRepository.deductLoop
    split
    · rfl
    · split
      · rw [ih, update_entries]
      · rw [ih, update_entries]

theorem deductLoop_filaments (l : List Spool) (st : DB) (rem : Int) :
    (ConsumptionRepository.deductLoop st l rem).filaments = st.filaments := by
  induction l generalizing st rem with
  | nil => rfl
  | cons a rest ih =>
    unfold ConsumptionRepository.deductLoop
    split
    · rfl
    · split
      · rw [ih, update_filaments]
      · rw [ih, update_filaments]

theorem deduct_entries (st : DB) (fid : Nat) (a : Int) :
    (ConsumptionRepository.deductFromFilament st fid a).entries = st.entries := by
  unfold ConsumptionRepository.deductFromFilament
  split
  · rfl
  · split
    · rfl
    · split
      · rw [update_entries]
      · dsimp only
        split
        · rw [deductLoop_entries, update_entries]
        · rw [update_entries]

theorem deduct_filaments (st : DB) (fid : Nat) (a : Int) :
    (ConsumptionRepository.deductFromFilament st fid a).filaments = st.filaments := by
  unfold ConsumptionRepository.deductFromFilament
  split
  · rfl
  · split
    · rfl
    · split
      · rw [update_filaments]
      · dsimp only
        split
        · rw [deductLoop_filaments, update_filaments]
        · rw [update_filaments]

theorem restore_entries (st : DB) (fid : Nat) (a : Int) :
    (ConsumptionRepository.restoreToFilament st fid a).entries = st.entries := by
  unfold ConsumptionRepository.restoreToFilament
  split
  · rfl
  · split
    · rfl
    · rw [update_entries]

theorem restore_filaments (st : DB) (fid : Nat) (a : Int) :
    (ConsumptionRepository.restoreToFilament st fid a).filaments = st.filaments := by
  unfold ConsumptionRepository.restoreToFilament
  split
  · rfl
  · split
    · rfl
    · rw [update_filaments]

theorem restore_of_no_active {st : DB} {fid : Nat} (a : Int)
    (h : SpoolRepository.findByFilamentId st fid false = []) :
    ConsumptionRepository.restoreToFilament st fid a =
      SpoolRepository.create st
        { filament_id := fid
          starting_weight_g := a
          empty_weight_g := none
          weight_g := a } := by
  unfold ConsumptionRepository.restoreToFilament
  rw [h]

theorem restore_eq_update_of_min {st : DB} {fid : Nat} {a : Int} {b : Spool}
    (hb : b ∈ SpoolRepository.findByFilamentId st fid false)
    (hmin : ∀ s ∈ SpoolRepository.findByFilamentId st fid false,
        s ≠ b → b.weight_g < s.weight_g) :
    ConsumptionRepository.restoreToFilament st fid a =
      SpoolRepository.update st (ConsumptionRepository.weightPatch b.id (b.weight_g + a)) := by
  obtain ⟨x, xs, hact⟩ : ∃ x xs, SpoolRepository.findByFilamentId st fid false = x :: xs := by
    cases h : SpoolRepository.findByFilamentId st fid false with
    | nil =>
      rw [h] at hb
      cases hb
    | cons x xs => exact ⟨x, xs, rfl⟩
  have hhead : (List.insertionSort (fun a b : Spool => a.weight_g ≤ b.weight_g) (x :: xs)).head? =
      some b := by
    have := head_insertionSort_ascInt (fun s : Spool => s.weight_g) (x :: xs) b
      (hact ▸ hb) (fun s hs hne => hmin s (hact ▸ hs) hne)
    exact this
  obtain ⟨t, hsort⟩ : ∃ t,
      List.insertionSort (fun a b : Spool => a.weight_g ≤ b.weight_g) (x :: xs) = b :: t := by
    cases hs : List.insertionSort (fun a b : Spool => a.weight_g ≤ b.weight_g) (x :: xs) with
    | nil =>
      rw [hs] at hhead
      cases hhead
    | cons h t =>
      rw [hs] at hhead
      exact ⟨t, by rw [Option.some_inj.mp hhead.symm] ⟩
  unfold ConsumptionRepository.restoreToFilament
  rw [hact]
  dsimp only
  rw [hsort]

theorem deductLoop_weights (l : List Spool) : ∀ (st : DB) (rem : Int),
    (l.map (fun s => s.id)).Nodup →
    (∀ s ∈ l, s.id ∈ st.spools.map (fun t => t.id)) →
    (ConsumptionRepository.deductLoop st l rem).spools.map (fun s => (s.id, s.weight_g)) =
      st.spools.map (fun s =>
        (s.id, (ConsumptionRepository.lookupId
            (ConsumptionRepository.carryWeights rem l) s.id).getD s.weight_g)) := by
  induction l with
  | nil =>
    intro st rem _ _
    simp [ConsumptionRepository.deductLoop, ConsumptionRepository.carryWeights,
      ConsumptionRepository.lookupId]
  | cons a rest ih =>
    intro st rem hnodup hmem
    have hmema : ∃ t ∈ st.spools, t.id = a.id := by
      obtain ⟨t, ht, hid⟩ := List.mem_map.mp (hmem a (List.mem_cons_self a rest))
      exact ⟨t, ht, hid⟩
    have hnodup' : (rest.map (fun s => s.id)).Nodup := by
      rw [List.map_cons, List.nodup_cons] at hnodup
      exact hnodup.2
    have hanotin : a.id ∉ rest.map (fun s => s.id) := by
      rw [List.map_cons, List.nodup_cons] at hnodup
      exact hnodup.1
    unfold ConsumptionRepository.deductLoop ConsumptionRepository.carryWeights
    by_cases hrem : rem ≤ 0
    · rw [if_pos hrem, if_pos hrem]
      simp [ConsumptionRepository.lookupId]
    · rw [if_neg hrem, if_neg hrem]
      by_cases hge : a.weight_g ≥ rem
      · rw [if_pos hge, if_pos hge]
        have hmem' : ∀ s ∈ rest, s.id ∈ (SpoolRepository.update st
            (ConsumptionRepository.weightPatch a.id (max 0 (a.weight_g - rem)))).spools.map
              (fun t => t.id) := by
          intro s hs
          rw [update_spool_ids]
          exact hmem s (List.mem_cons_of_mem a hs)
        rw [ih _ _ hnodup' hmem']
        rw [carryWeights_nonpos rest le_rfl]
        rw [update_spools_of_mem hmema]
        rw [List.map_map]
        refine List.map_congr_left (fun s _ => ?_)
        by_cases hid : s.id = a.id
        · simp [Function.comp, hid, applyUpdate_weightPatch, ConsumptionRepository.lookupId,
            ConsumptionRepository.weightPatch, SpoolRepository.applyUpdate]
        · simp [Function.comp, hid, Ne.symm hid, ConsumptionRepository.lookupId,
            ConsumptionRepository.weightPatch]
      · rw [if_neg hge, if_neg hge]
        have hmem' : ∀ s ∈ rest, s.id ∈ (SpoolRepository.update st
            (ConsumptionRepository.weightPatch a.id 0)).spools.map (fun t => t.id) := by
          intro s hs
          rw [update_spool_ids]
          exact hmem s (List.mem_cons_of_mem a hs)
        rw [ih _ _ hnodup' hmem']
        rw [update_spools_of_mem hmema]
        rw [List.map_map]
        refine List.map_congr_left (fun s _ => ?_)
        by_cases hid : s.id = a.id
        · simp [Function.comp, hid, applyUpdate_weightPatch, ConsumptionRepository.lookupId,
            ConsumptionRepository.weightPatch, SpoolRepository.applyUpdate,
            lookupId_eq_none_of_not_mem hanotin]
        · simp [Function.comp, hid, Ne.symm hid, ConsumptionRepository.lookupId,
            ConsumptionRepository.weightPatch]

theorem nodup_id_inj {l : List Spool} (hnodup : (l.map (fun s => s.id)).Nodup)
    {s t : Spool} (hs : s ∈ l) (ht : t ∈ l) (hid : s.id = t.id) : s = t :=
  List.inj_on_of_nodup_map hnodup hs ht hid

theorem findByFilamentId_nodup_ids {st : DB} {fid : Nat} {inc : Bool}
    (h : (st.spools.map (fun s => s.id)).Nodup) :
    ((SpoolRepository.findByFilamentId st fid inc).map (fun s => s.id)).Nodup := by
  unfold SpoolRepository.findByFilamentId
  have hfil : ((st.spools.filter
      (fun s => s.filament_id == fid && (inc || !s.archived))).map (fun s => s.id)).Nodup :=
    List.Nodup.sublist (List.Sublist.map _ (List.filter_sublist _)) h
  exact (((List.perm_insertionSort _ _).symm).map _).nodup hfil

theorem candidateSpools_nodup_ids {st : DB} {fid : Nat}
    (h : (st.spools.map (fun s => s.id)).Nodup) :
    ((ConsumptionRepository.candidateSpools st fid).map (fun s => s.id)).Nodup := by
  have hfind : ((SpoolRepository.findByFilamentId st fid false).map (fun s => s.id)).Nodup :=
    findByFilamentId_nodup_ids h
  simp only [ConsumptionRepository.candidateSpools]
  split
  · have hused : (((SpoolRepository.findByFilamentId st fid false).filter
        (fun s => decide (s.weight_g < s.starting_weight_g))).map (fun s => s.id)).Nodup :=
      List.Nodup.sublist (List.Sublist.map _ (List.filter_sublist _)) hfind
    exact (((List.perm_insertionSort _ _).symm).map _).nodup hused
  · exact (((List.perm_insertionSort _ _).symm).map _).nodup hfind

theorem mem_update_weightPatch_spools {st : DB} {i : Nat} {w : Int} {s : Spool}
    (hs : s ∈ (SpoolRepository.update st (ConsumptionRepository.weightPatch i w)).spools) :
    s ∈ st.spools ∨ s.weight_g = w := by
  unfold SpoolRepository.update at hs
  split at hs
  · obtain ⟨t, ht, rfl⟩ := List.mem_map.mp hs
    by_cases h : t.id = (ConsumptionRepository.weightPatch i w).id
    · right
      rw [if_pos h, applyUpdate_weightPatch]
    · left
      rwa [if_neg h]
  · left
    exact hs

theorem mem_update_weightPatch_trap {st : DB} {i : Nat} {w : Int} {s : Spool}
    (hs : s ∈ (SpoolRepository.update st (ConsumptionRepository.weightPatch i w)).spools) :
    s ∈ st.spools ∨ (netRemaining s ≤ 0 → s.archived = true) := by
  unfold SpoolRepository.update at hs
  split at hs
  · obtain ⟨t, ht, rfl⟩ := List.mem_map.mp hs
    by_cases h : t.id = (ConsumptionRepository.weightPatch i w).id
    · right
      rw [if_pos h, applyUpdate_weightPatch]
      intro hnet
      simp only [netRemaining] at hnet
      rw [if_pos hnet]
    · left
      rwa [if_neg h]
  · left
    exact hs

theorem deductLoop_mem_nonneg (l : List Spool) : ∀ (st : DB) (rem : Int),
    ∀ s ∈ (ConsumptionRepository.deductLoop st l rem).spools, s ∈ st.spools ∨ 0 ≤ s.weight_g := by
  induction l with
  | nil =>
    intro st rem s hs
    exact Or.inl hs
  | cons a rest ih =>
    intro st rem s hs
    unfold ConsumptionRepository.deductLoop at hs
    split at hs
    · exact Or.inl hs
    · split at hs
      · rcases ih _ _ s hs with h | h
        · rcases mem_update_weightPatch_spools h with h2 | h2
          · exact Or.inl h2
          · right
            rw [h2]
            exact le_max_left 0 _
        · exact Or.inr h
      · rcases ih _ _ s hs with h | h
        · rcases mem_update_weightPatch_spools h with h2 | h2
          · exact Or.inl h2
          · right
            rw [h2]
        · exact Or.inr h

theorem deductLoop_mem_trap (l : List Spool) : ∀ (st : DB) (rem : Int),
    ∀ s ∈ (ConsumptionRepository.deductLoop st l rem).spools,
      s ∈ st.spools ∨ (netRemaining s ≤ 0 → s.archived = true) := by
  induction l with
  | nil =>
    intro st rem s hs
    exact Or.inl hs
  | cons a rest ih =>
    intro st rem s hs
    unfold ConsumptionRepository.deductLoop at hs
    split at hs
    · exact Or.inl hs
    · split at hs
      · rcases ih _ _ s hs with h | h
        · exact mem_update_weightPatch_trap h
        · exact Or.inr h
      · rcases ih _ _ s hs with h | h
        · exact mem_update_weightPatch_trap h
        · exact Or.inr h

theorem deduct_of_no_active {st : DB} {fid : Nat} (a : Int)
    (h : SpoolRepository.findByFilamentId st fid false = []) :
    ConsumptionRepository.deductFromFilament st fid a = st := by
  unfold ConsumptionRepository.deductFromFilament
  rw [h]

theorem deduct_mem_nonneg (st : DB) (fid : Nat) (a : Int) :
    ∀ s ∈ (ConsumptionRepository.deductFromFilament st fid a).spools,
      s ∈ st.spools ∨ 0 ≤ s.weight_g := by
  intro s hs
  unfold ConsumptionRepository.deductFromFilament at hs
  split at hs
  · exact Or.inl hs
  · split at hs
    · exact Or.inl hs
    · split at hs
      · rcases mem_update_weightPatch_spools hs with h | h
        · exact Or.inl h
        · right
          rw [h]
          exact le_max_left 0 _
      · dsimp only at hs
        split at hs
        · rcases deductLoop_mem_nonneg _ _ _ s hs with h | h
          · rcases mem_update_weightPatch_spools h with h2 | h2
            · exact Or.inl h2
            · right
              rw [h2]
          · exact Or.inr h
        · rcases mem_update_weightPatch_spools hs with h | h
          · exact Or.inl h
          · right
            rw [h]

theorem deduct_mem_trap (st : DB) (fid : Nat) (a : Int) :
    ∀ s ∈ (ConsumptionRepository.deductFromFilament st fid a).spools,
      s ∈ st.spools ∨ (netRemaining s ≤ 0 → s.archived = true) := by
  intro s hs
  unfold ConsumptionRepository.deductFromFilament at hs
  split at hs
  · exact Or.inl hs
  · split at hs
    · exact Or.inl hs
    · split at hs
      · exact mem_update_weightPatch_trap hs
      · dsimp only at hs
        split at hs
        · rcases deductLoop_mem_trap _ _ _ s hs with h | h
          · exact mem_update_weightPatch_trap h
          · exact Or.inr h
        · exact mem_update_weightPatch_trap hs

theorem archived_not_in_findByFilamentId {st : DB} {fid : Nat} {s : Spool}
    (h : s.archived = true) : s ∉ SpoolRepository.findByFilamentId st fid false := by
  intro hmem
  have := (mem_findByFilamentId.mp hmem).2.2
  rw [h] at this
  cases this

theorem restore_preserves_archived {st : DB} {fid : Nat} {a : Int} {s : Spool}
    (hnodup : (st.spools.map (fun t => t.id)).Nodup)
    (hs : s ∈ st.spools) (harch : s.archived = true) :
    s ∈ (ConsumptionRepository.restoreToFilament st fid a).spools := by
  unfold ConsumptionRepository.restoreToFilament
  split
  · exact List.mem_append_left _ hs
  · next x xs heq =>
    split
    · exact hs
    · next lightest tail hsort =>
      have hl : lightest ∈ SpoolRepository.findByFilamentId st fid false := by
        rw [heq]
        exact (List.mem_insertionSort _).mp (hsort ▸ List.mem_cons_self lightest tail)
      have hlm := mem_findByFilamentId.mp hl
      have hne : ¬s.id = lightest.id := by
        intro he
        have hseq : s = lightest := nodup_id_inj hnodup hs hlm.1 he
        rw [hseq, hlm.2.2] at harch
        cases harch
      unfold SpoolRepository.update
      split
      · exact List.mem_map.mpr ⟨s, hs, by simp [ConsumptionRepository.weightPatch, hne]⟩
      · exact hs

/-! Claim theorems. -/

/-- C7: For every existing spool and every update patch,
`SpoolRepository.update` stores the patch's `archived` value verbatim when
the patch supplies one; when the patch does not supply `archived`, the
updated row is archived whenever the recomputed net remaining weight is at
most zero, and otherwise keeps its previous archived flag — the engine
never auto-unarchives. -/
theorem spool_update_auto_archive_trap (st : DB) (input : UpdateSpoolInput) (s : Spool)
    (hs : s ∈ st.spools) (hid : s.id = input.id) :
    SpoolRepository.applyUpdate st.now input s ∈ (SpoolRepository.update st input).spools ∧
    (∀ b, input.archived = some b →
      (SpoolRepository.applyUpdate st.now input s).archived = b) ∧
    (input.archived = none → netRemaining (SpoolRepository.applyUpdate st.now input s) ≤ 0 →
      (SpoolRepository.applyUpdate st.now input s).archived = true) ∧
    (input.archived = none → 0 < netRemaining (SpoolRepository.applyUpdate st.now input s) →
      (SpoolRepository.applyUpdate st.now input s).archived = s.archived) := by
  refine ⟨?_, ?_, ?_, ?_⟩
  · rw [update_spools_of_mem ⟨s, hs, hid⟩]
    exact List.mem_map.mpr ⟨s, hs, by rw [if_pos hid]⟩
  · intro b hb
    simp [SpoolRepository.applyUpdate, hb]
  · intro hnone hle
    simp only [SpoolRepository.applyUpdate, hnone, netRemaining] at hle ⊢
    rw [if_pos hle]
  · intro hnone hpos
    simp only [SpoolRepository.applyUpdate, hnone, netRemaining] at hpos ⊢
    rw [if_neg (not_le.mpr hpos)]

/-- Witness for C7, the spec's auto-archive example: updating the
tare-50 spool to gross weight 50 leaves net remaining 0, so the spool is
archived even though the patch did not set `archived`. -/
theorem spool_update_auto_archive_trap_witness :
    SpoolRepository.applyUpdate tareSpoolDB.now autoArchivePatch tareSpool ∈
        (SpoolRepository.update tareSpoolDB autoArchivePatch).spools ∧
    netRemaining (SpoolRepository.applyUpdate tareSpoolDB.now autoArchivePatch tareSpool) ≤ 0 ∧
    (SpoolRepository.applyUpdate tareSpoolDB.now autoArchivePatch tareSpool).archived = true := by
  have h := spool_update_auto_archive_trap tareSpoolDB autoArchivePatch tareSpool
    (by decide) (by decide)
  exact ⟨h.1, by decide, h.2.2.1 rfl (by decide)⟩

/-- C8: archiving an existing filament archives every spool owned by that
filament, regardless of each spool's weight or net remaining mass. -/
theorem filament_archive_cascades (st : DB) (fid : Nat)
    (hex : ∃ f ∈ st.filaments, f.id = fid) :
    ∀ s ∈ (FilamentRepository.archive st fid true).spools,
      s.filament_id = fid → s.archived = true := by
  obtain ⟨f, hf, hfid⟩ := hex
  intro s hs hsfid
  simp only [FilamentRepository.archive, if_true] at hs
  simp only [SpoolRepository.archiveByFilamentId] at hs
  obtain ⟨t, _, rfl⟩ := List.mem_map.mp hs
  by_cases h : t.filament_id = fid
  · simp [h]
  · rw [if_neg h] at hsfid ⊢
    exact absurd hsfid h

/-- Witness for C8: archiving filament 1 of `usedAndUnusedDB` archives
both of its spools, the full one included. -/
theorem filament_archive_cascades_witness :
    ((FilamentRepository.archive usedAndUnusedDB 1 true).spools.all
      (fun s => !(s.filament_id == 1) || s.archived)) = true := by
  have h := filament_archive_cascades usedAndUnusedDB 1
    ⟨{ id := 1, archived := false }, by decide, rfl⟩
  rw [List.all_eq_true]
  intro s hs
  by_cases hfid : s.filament_id = 1
  · simp [h s hs hfid]
  · simp [hfid]

/-- C9: in the end-to-end scenario (one spool, starting weight 1000, tare
250, gross weight 1000), consuming 751 g — as a single entry, or split
500 g + 251 g — leaves the spool at gross weight 249, auto-archived
(net remaining −1 ≤ 0), and the filament's derived remaining weight is 0
because only non-archived spools are summed. -/
theorem end_to_end_751_scenario :
    ((ConsumptionRepository.create scenario751DB
        { filament_id := 1, amount_g := 751 }).spools.map
        (fun s => (s.weight_g, netRemaining s, s.archived)) = [(249, -1, true)]) ∧
    FilamentRepository.calculateRemainingWeight
      (ConsumptionRepository.create scenario751DB { filament_id := 1, amount_g := 751 }) 1 = 0 ∧
    ((ConsumptionRepository.create
        (ConsumptionRepository.create scenario751DB { filament_id := 1, amount_g := 500 })
        { filament_id := 1, amount_g := 251 }).spools.map
        (fun s => (s.weight_g, netRemaining s, s.archived)) = [(249, -1, true)]) ∧
    FilamentRepository.calculateRemainingWeight
      (ConsumptionRepository.create
        (ConsumptionRepository.create scenario751DB { filament_id := 1, amount_g := 500 })
        { filament_id := 1, amount_g := 251 }) 1 = 0 := by
  decide

/-- C3: with at least one active spool, the primary target of a deduction
is the used spool with the most recent update timestamp when any active
spool is used (strictly most recent among the used ones), and otherwise
the active spool with the most recent creation timestamp; when that
spool's weight covers the amount, only that spool's weight changes, and
it is reduced by exactly the amount. -/
theorem deduct_primary_target_selection (st : DB) (fid : Nat) (a : Int) (b : Spool)
    (hb : b ∈ SpoolRepository.findByFilamentId st fid false)
    (hsel :
      (b.weight_g < b.starting_weight_g ∧
        ∀ s ∈ SpoolRepository.findByFilamentId st fid false,
          s.weight_g < s.starting_weight_g → s ≠ b → s.updated_at < b.updated_at) ∨
      ((∀ s ∈ SpoolRepository.findByFilamentId st fid false,
          ¬(s.weight_g < s.starting_weight_g)) ∧
        ∀ s ∈ SpoolRepository.findByFilamentId st fid false, s ≠ b →
          s.created_at < b.created_at))
    (ha : a ≤ b.weight_g) :
    (ConsumptionRepository.candidateSpools st fid).head? = some b ∧
    (ConsumptionRepository.deductFromFilament st fid a).spools.map (fun s => (s.id, s.weight_g)) =
      st.spools.map (fun s => (s.id, if s.id = b.id then b.weight_g - a else s.weight_g)) := by
  have hhead : (ConsumptionRepository.candidateSpools st fid).head? = some b := by
    rcases hsel with ⟨hused, hmax⟩ | ⟨hnone, hmax⟩
    · exact candidateSpools_head_of_used hb hused hmax
    · exact candidateSpools_head_of_unused hb hnone hmax
  refine ⟨hhead, ?_⟩
  obtain ⟨rest, hcand⟩ : ∃ rest, ConsumptionRepository.candidateSpools st fid = b :: rest := by
    cases hc : ConsumptionRepository.candidateSpools st fid with
    | nil =>
      rw [hc] at hhead
      cases hhead
    | cons h t =>
      rw [hc] at hhead
      exact ⟨t, by rw [Option.some_inj.mp hhead]⟩
  rw [deduct_eq_update_of_sufficient hcand ha]
  rw [update_spools_of_mem ⟨b, (mem_findByFilamentId.mp hb).1, rfl⟩]
  rw [List.map_map]
  refine List.map_congr_left (fun s _ => ?_)
  have hmax0 : max 0 (b.weight_g - a) = b.weight_g - a := max_eq_right (sub_nonneg.mpr ha)
  by_cases hid : s.id = b.id
  · simp [Function.comp, ConsumptionRepository.weightPatch, SpoolRepository.applyUpdate,
      hid, hmax0]
  · simp [Function.comp, ConsumptionRepository.weightPatch, SpoolRepository.applyUpdate, hid]

/-- Witness for C3, the spec's targeting example: spool B (80 of 100,
used) is the primary target, and deducting 30 g yields B = 50 with A
untouched at 100. -/
theorem deduct_primary_target_selection_witness :
    ((ConsumptionRepository.candidateSpools targetingExampleDB 1).head? = some spoolB ∧
      (ConsumptionRepository.deductFromFilament targetingExampleDB 1 30).spools.map
          (fun s => (s.id, s.weight_g)) =
        targetingExampleDB.spools.map
          (fun s => (s.id, if s.id = spoolB.id then spoolB.weight_g - 30 else s.weight_g))) ∧
    (ConsumptionRepository.deductFromFilament targetingExampleDB 1 30).spools.map
        (fun s => (s.id, s.weight_g)) = [(1, 100), (2, 50)] :=
  ⟨deduct_primary_target_selection targetingExampleDB 1 30 spoolB (by decide)
      (Or.inl ⟨by decide, by decide⟩) (by decide),
   by decide⟩

/-- C6: restoring a positive amount to a filament with no active spools
creates a single fresh non-archived spool with starting weight, weight
equal to the amount and no tare weight; with active spools present, the
full amount is added to the strictly lightest active spool and no other
spool's weight changes. -/
theorem restore_targets_lightest_spool (st : DB) (fid : Nat) (a : Int) :
    (SpoolRepository.findByFilamentId st fid false = [] →
      (ConsumptionRepository.restoreToFilament st fid a).spools =
        st.spools ++ [{ id := st.nextSpoolId, filament_id := fid, starting_weight_g := a,
                        empty_weight_g := none, weight_g := a, archived := false,
                        created_at := st.now, updated_at := st.now }]) ∧
    (∀ b ∈ SpoolRepository.findByFilamentId st fid false,
      (∀ s ∈ SpoolRepository.findByFilamentId st fid false, s ≠ b → b.weight_g < s.weight_g) →
      (ConsumptionRepository.restoreToFilament st fid a).spools.map (fun s => (s.id, s.weight_g)) =
        st.spools.map (fun s => (s.id, if s.id = b.id then b.weight_g + a else s.weight_g))) := by
  constructor
  · intro h
    rw [restore_of_no_active a h]
    rfl
  · intro b hb hmin
    rw [restore_eq_update_of_min hb hmin]
    rw [update_spools_of_mem ⟨b, (mem_findByFilamentId.mp hb).1, rfl⟩]
    rw [List.map_map]
    refine List.map_congr_left (fun s _ => ?_)
    by_cases hid : s.id = b.id
    · simp [Function.comp, ConsumptionRepository.weightPatch, SpoolRepository.applyUpdate, hid]
    · simp [Function.comp, ConsumptionRepository.weightPatch, SpoolRepository.applyUpdate, hid]

/-- Witness for C6: restoring 20 g to a spool-less filament creates the
fresh 20 g spool, and in the spec's example (A = 100, B = 50) restoring
20 g targets B, yielding B = 70 with A untouched. -/
theorem restore_targets_lightest_spool_witness :
    ((ConsumptionRepository.restoreToFilament emptyFilamentDB 1 20).spools =
      emptyFilamentDB.spools ++
        [{ id := emptyFilamentDB.nextSpoolId, filament_id := 1, starting_weight_g := 20,
           empty_weight_g := none, weight_g := 20, archived := false,
           created_at := emptyFilamentDB.now, updated_at := emptyFilamentDB.now }]) ∧
    ((ConsumptionRepository.restoreToFilament restoreExampleDB 1 20).spools.map
        (fun s => (s.id, s.weight_g)) =
      restoreExampleDB.spools.map
        (fun s => (s.id, if s.id = lightSpoolB.id then lightSpoolB.weight_g + 20 else s.weight_g))) :=
  ⟨(restore_targets_lightest_spool emptyFilamentDB 1 20).1 (by decide),
   (restore_targets_lightest_spool restoreExampleDB 1 20).2 lightSpoolB (by decide) (by decide)⟩

/-- C5: creating a consumption entry never fails: for every state the
entry row is persisted with its amount unchanged; when the filament has
no active spools the deduction leaves the spool table untouched; and in
every case a spool row rewritten by the deduction has non-negative
weight — candidate exhaustion silently drops the excess instead of
over-deducting or raising an error. -/
theorem createEntry_never_fails (st : DB) (input : CreateConsumptionInput) :
    ((ConsumptionRepository.create st input).entries =
      st.entries ++ [{ id := st.nextEntryId, filament_id := input.filament_id,
                       amount_g := input.amount_g }]) ∧
    (SpoolRepository.findByFilamentId st input.filament_id false = [] →
      (ConsumptionRepository.create st input).spools = st.spools) ∧
    (∀ s ∈ (ConsumptionRepository.create st input).spools,
      s ∈ st.spools ∨ 0 ≤ s.weight_g) := by
  refine ⟨?_, ?_, ?_⟩
  · unfold ConsumptionRepository.create
    dsimp only
    rw [deduct_entries]
  · intro h
    unfold ConsumptionRepository.create
    dsimp only
    rw [deduct_of_no_active input.amount_g]
    exact h
  · intro s hs
    unfold ConsumptionRepository.create at hs
    dsimp only at hs
    rcases deduct_mem_nonneg _ _ _ s hs with h | h
    · exact Or.inl h
    · exact Or.inr h

/-- Witness for C5: on a filament with no spools at all, creating a 40 g
entry persists the entry and leaves the (empty) spool table unchanged. -/
theorem createEntry_never_fails_witness :
    ((ConsumptionRepository.create emptyFilamentDB { filament_id := 1, amount_g := 40 }).entries =
      emptyFilamentDB.entries ++
        [{ id := emptyFilamentDB.nextEntryId, filament_id := 1, amount_g := 40 }]) ∧
    ((ConsumptionRepository.create emptyFilamentDB
        { filament_id := 1, amount_g := 40 }).spools = emptyFilamentDB.spools) :=
  ⟨(createEntry_never_fails emptyFilamentDB { filament_id := 1, amount_g := 40 }).1,
   (createEntry_never_fails emptyFilamentDB { filament_id := 1, amount_g := 40 }).2.1 (by decide)⟩

/-- C10: every spool row a deduction rewrites goes through the ledger's
update and so through the auto-archive rule: a rewritten row whose net
remaining mass is at most zero is archived; an archived row is absent
from the active-spool fetch used by every subsequent deduction or
restoration; and a restoration never alters an archived spool row — so a
spool emptied by a deduction is never refilled. -/
theorem deduct_writes_auto_archive (st : DB) (fid : Nat) (a : Int)
    (hnodup : (st.spools.map (fun s => s.id)).Nodup) :
    (∀ s ∈ (ConsumptionRepository.deductFromFilament st fid a).spools,
      s ∉ st.spools → netRemaining s ≤ 0 → s.archived = true) ∧
    (∀ s ∈ (ConsumptionRepository.deductFromFilament st fid a).spools, s.archived = true →
      s ∉ SpoolRepository.findByFilamentId (ConsumptionRepository.deductFromFilament st fid a)
          fid false) ∧
    (∀ s ∈ st.spools, s.archived = true →
      s ∈ (ConsumptionRepository.restoreToFilament st fid a).spools) := by
  refine ⟨?_, ?_, ?_⟩
  · intro s hs hnew
    rcases deduct_mem_trap st fid a s hs with h | h
    · exact absurd h hnew
    · exact h
  · intro s _ harch
    exact archived_not_in_findByFilamentId harch
  · intro s hs harch
    exact restore_preserves_archived hnodup hs harch

/-- Witness for C10, on a state with one archived emptied spool and one
active spool of 60 g: deducting 60 g zeroes the active spool, which is
thereby auto-archived and gone from the active fetch, while a
restoration leaves the already-archived spool untouched. -/
theorem deduct_writes_auto_archive_witness :
    (({ id := 2, filament_id := 1, starting_weight_g := 100, empty_weight_g := none,
        weight_g := 0, archived := true, created_at := 1, updated_at := 3 } : Spool).archived =
      true) ∧
    (({ id := 2, filament_id := 1, starting_weight_g := 100, empty_weight_g := none,
        weight_g := 0, archived := true, created_at := 1, updated_at := 3 } : Spool) ∉
      SpoolRepository.findByFilamentId
        (ConsumptionRepository.deductFromFilament archivedSpoolDB 1 60) 1 false) ∧
    (({ id := 1, filament_id := 1, starting_weight_g := 100, empty_weight_g := none,
        weight_g := 0, archived := true, created_at := 0, updated_at := 2 } : Spool) ∈
      (ConsumptionRepository.restoreToFilament archivedSpoolDB 1 60).spools) := by
  have h := deduct_writes_auto_archive archivedSpoolDB 1 60 (by decide)
  exact ⟨h.1 _ (by decide) (by decide) (by decide), h.2.1 _ (by decide) (by decide),
    h.2.2 _ (by decide) (by decide)⟩

/-- Counterexample to C4 as stated: with an unused spool 1 (100 of 100)
and a used spool 2 (20 of 100), deducting 50 g zeroes spool 2 and drops
the 30 g remainder — spool 1 stays at 100 — whereas the claim's carry
pass over ALL active spools except the primary would leave spool 1 at
70. -/
theorem deduct_carry_all_active_refuted :
    ((ConsumptionRepository.deductFromFilament usedAndUnusedDB 1 50).spools.map
        (fun s => (s.id, s.weight_g)) = [(1, 100), (2, 0)]) ∧
    ((ConsumptionRepository.deductAllActiveClaimed usedAndUnusedDB 1 50).spools.map
        (fun s => (s.id, s.weight_g)) = [(1, 70), (2, 0)]) ∧
    ConsumptionRepository.deductFromFilament usedAndUnusedDB 1 50 ≠
      ConsumptionRepository.deductAllActiveClaimed usedAndUnusedDB 1 50 := by
  decide

/-- C4 (amended): when the primary target cannot cover the amount, it is
zeroed and the remainder is carried over the remaining spools of the
selected candidate list — the other used spools whenever any active
spool is used, otherwise the other active spools — in descending order
of weight, subtracting from or zeroing each until the remainder reaches
zero or the candidates are exhausted; spools outside the candidate list
are untouched. -/
theorem deduct_carry_over_candidate_rest (st : DB) (fid : Nat) (a : Int) (p : Spool)
    (rest : List Spool)
    (hnodup : (st.spools.map (fun s => s.id)).Nodup)
    (hcand : ConsumptionRepository.candidateSpools st fid = p :: rest)
    (hlt : p.weight_g < a) :
    (ConsumptionRepository.deductFromFilament st fid a).spools.map (fun s => (s.id, s.weight_g)) =
      st.spools.map (fun s =>
        (s.id,
          if s.id = p.id then 0
          else (ConsumptionRepository.lookupId
              (ConsumptionRepository.carryWeights (a - p.weight_g)
                (List.insertionSort (fun x y : Spool => y.weight_g ≤ x.weight_g) rest))
              s.id).getD s.weight_g)) := by
  have hpcand : p ∈ ConsumptionRepository.candidateSpools st fid := by
    rw [hcand]
    exact List.mem_cons_self p rest
  have hpmem : p ∈ st.spools := (mem_candidateSpools hpcand).1
  have hcnodup : ((ConsumptionRepository.candidateSpools st fid).map (fun s => s.id)).Nodup :=
    candidateSpools_nodup_ids hnodup
  rw [hcand, List.map_cons, List.nodup_cons] at hcnodup
  obtain ⟨hpnot, hrestnodup⟩ := hcnodup
  have hsortnodup : ((List.insertionSort (fun x y : Spool => y.weight_g ≤ x.weight_g) rest).map
      (fun s => s.id)).Nodup :=
    (((List.perm_insertionSort _ _).symm).map _).nodup hrestnodup
  have hpnotinsort : p.id ∉
      (List.insertionSort (fun x y : Spool => y.weight_g ≤ x.weight_g) rest).map
        (fun s => s.id) := by
    intro hmem
    apply hpnot
    obtain ⟨t, ht, hid⟩ := List.mem_map.mp hmem
    exact List.mem_map.mpr ⟨t, (List.mem_insertionSort _).mp ht, hid⟩
  have hmem' : ∀ s ∈ List.insertionSort (fun x y : Spool => y.weight_g ≤ x.weight_g) rest,
      s.id ∈ (SpoolRepository.update st (ConsumptionRepository.weightPatch p.id 0)).spools.map
        (fun t => t.id) := by
    intro s hsmem
    rw [update_spool_ids]
    have hsrest : s ∈ rest := (List.mem_insertionSort _).mp hsmem
    have hscand : s ∈ ConsumptionRepository.candidateSpools st fid := by
      rw [hcand]
      exact List.mem_cons_of_mem p hsrest
    exact List.mem_map.mpr ⟨s, (mem_candidateSpools hscand).1, rfl⟩
  rw [deduct_eq_loop_of_insufficient hcand hlt]
  rw [deductLoop_weights _ _ _ hsortnodup hmem']
  rw [update_spools_of_mem ⟨p, hpmem, rfl⟩]
  rw [List.map_map]
  refine List.map_congr_left (fun s _ => ?_)
  by_cases hid : s.id = p.id
  · simp [Function.comp, ConsumptionRepository.weightPatch, SpoolRepository.applyUpdate, hid,
      lookupId_eq_none_of_not_mem hpnotinsort]
  · simp [Function.comp, ConsumptionRepository.weightPatch, SpoolRepository.applyUpdate, hid]

/-- Witness for the amended C4: three used spools (50, 30, 40 of 100),
deducting 100 g zeroes the primary (50), then carries 50 g over the
remaining candidates in weight order (40 zeroed, then 30 reduced to
20). -/
theorem deduct_carry_over_candidate_rest_witness :
    ((ConsumptionRepository.deductFromFilament threeUsedSpoolsDB 1 100).spools.map
        (fun s => (s.id, s.weight_g)) =
      threeUsedSpoolsDB.spools.map (fun s =>
        (s.id,
          if s.id = carryPrimary.id then 0
          else (ConsumptionRepository.lookupId
              (ConsumptionRepository.carryWeights (100 - carryPrimary.weight_g)
                (List.insertionSort (fun x y : Spool => y.weight_g ≤ x.weight_g)
                  [carrySecond, carryThird]))
              s.id).getD s.weight_g))) ∧
    (ConsumptionRepository.deductFromFilament threeUsedSpoolsDB 1 100).spools.map
        (fun s => (s.id, s.weight_g)) = [(1, 0), (2, 20), (3, 0)] :=
  ⟨deduct_carry_over_candidate_rest threeUsedSpoolsDB 1 100 carryPrimary
      [carrySecond, carryThird] (by decide) (by decide) (by decide),
   by decide⟩

/-- Counterexample to C1 as stated: moving the 50 g entry of filament 1
to filament 2 while raising its amount to 60 g applies the +10 g delta
against the NEW filament (spool 2: −10, then −60; spool 1: +50 only,
ending at 150), whereas the claim's adjustments against the OLD filament
would end with spool 1 at 140 and spool 2 at 40. -/
theorem updateEntry_old_filament_refuted :
    ((ConsumptionRepository.update moveEntryDB movePatch).spools.map
        (fun s => (s.id, s.weight_g)) = [(1, 150), (2, 30)]) ∧
    ((ConsumptionRepository.updateAdjustClaimed moveEntryDB movePatch).spools.map
        (fun s => (s.id, s.weight_g)) = [(1, 140), (2, 40)]) ∧
    ConsumptionRepository.update moveEntryDB movePatch ≠
      ConsumptionRepository.updateAdjustClaimed moveEntryDB movePatch := by
  decide

/-- C1 (amended): for patches with truthy fields (no zero filament id or
zero amount — both excluded by the request validators), `update` performs
exactly these weight adjustments: the delta of an amount change is
deducted from (positive) or restored to (negative) the filament id
resulting from the update — the new filament when the patch changes it;
and when the filament changed, the old amount is restored to the old
filament and the deduction against the new filament runs with the
patch's amount when supplied, and with the `undefined` amount (zeroing
the new filament's primary target) when the patch omits the amount. -/
theorem updateEntry_amended_adjustments (st : DB) (input : UpdateConsumptionInput)
    (hf : input.filament_id ≠ some 0) (ha : input.amount_g ≠ some 0) :
    ConsumptionRepository.update st input =
      ConsumptionRepository.updateAdjustAmended st input := by
  obtain ⟨iid, ifid, iamt⟩ := input
  simp only at hf ha
  unfold ConsumptionRepository.update ConsumptionRepository.updateAdjustAmended
  cases hfind : ConsumptionRepository.findById st iid with
  | none => rfl
  | some existing =>
    dsimp only
    cases ifid with
    | none =>
      cases iamt with
      | none =>
        simp [ConsumptionRepository.filamentChangedGuard, orFalsyNat, orFalsyInt]
      | some v =>
        have hv0 : v ≠ 0 := fun h0 => ha (by rw [h0])
        rcases lt_trichotomy (v - existing.amount_g) 0 with h | h | h
        · simp [ConsumptionRepository.filamentChangedGuard, orFalsyNat, orFalsyInt, hv0,
            ne_of_lt h, h, not_lt.mpr h.le]
        · simp [ConsumptionRepository.filamentChangedGuard, orFalsyNat, orFalsyInt, hv0, h]
        · simp [ConsumptionRepository.filamentChangedGuard, orFalsyNat, orFalsyInt, hv0,
            ne_of_gt h, h, not_lt.mpr h.le]
    | some f =>
      have hf0 : f ≠ 0 := fun h0 => hf (by rw [h0])
      by_cases hfe : f = existing.filament_id
      · cases iamt with
        | none =>
          simp [ConsumptionRepository.filamentChangedGuard, orFalsyNat, orFalsyInt, hf0, hfe]
        | some v =>
          have hv0 : v ≠ 0 := fun h0 => ha (by rw [h0])
          rcases lt_trichotomy (v - existing.amount_g) 0 with h | h | h
          · simp [ConsumptionRepository.filamentChangedGuard, orFalsyNat, orFalsyInt, hv0,
              hf0, hfe, ne_of_lt h, h, not_lt.mpr h.le]
          · simp [ConsumptionRepository.filamentChangedGuard, orFalsyNat, orFalsyInt, hv0,
              hf0, hfe, h]
          · simp [ConsumptionRepository.filamentChangedGuard, orFalsyNat, orFalsyInt, hv0,
              hf0, hfe, ne_of_gt h, h, not_lt.mpr h.le]
      · cases iamt with
        | none =>
          simp [ConsumptionRepository.filamentChangedGuard, orFalsyNat, orFalsyInt,
            ConsumptionRepository.deductFromFilamentJS, hf0, hfe]
        | some v =>
          have hv0 : v ≠ 0 := fun h0 => ha (by rw [h0])
          rcases lt_trichotomy (v - existing.amount_g) 0 with h | h | h
          · simp [ConsumptionRepository.filamentChangedGuard, orFalsyNat, orFalsyInt,
              ConsumptionRepository.deductFromFilamentJS, hv0, hf0, hfe,
              ne_of_lt h, h, not_lt.mpr h.le]
          · simp [ConsumptionRepository.filamentChangedGuard, orFalsyNat, orFalsyInt,
              ConsumptionRepository.deductFromFilamentJS, hv0, hf0, hfe, h]
          · simp [ConsumptionRepository.filamentChangedGuard, orFalsyNat, orFalsyInt,
              ConsumptionRepository.deductFromFilamentJS, hv0, hf0, hfe,
              ne_of_gt h, h, not_lt.mpr h.le]

/-- Witness for the amended C1: the filament-move-with-amount-change
patch on `moveEntryDB`. -/
theorem updateEntry_amended_adjustments_witness :
    ConsumptionRepository.update moveEntryDB movePatch =
      ConsumptionRepository.updateAdjustAmended moveEntryDB movePatch :=
  updateEntry_amended_adjustments moveEntryDB movePatch (by decide) (by decide)

theorem create_entries (st : DB) (input : CreateConsumptionInput) :
    (ConsumptionRepository.create st input).entries =
      st.entries ++ [{ id := st.nextEntryId, filament_id := input.filament_id,
                       amount_g := input.amount_g }] := by
  unfold ConsumptionRepository.create
  dsimp only
  rw [deduct_entries]

theorem create_filaments (st : DB) (input : CreateConsumptionInput) :
    (ConsumptionRepository.create st input).filaments = st.filaments := by
  unfold ConsumptionRepository.create
  dsimp only
  rw [deduct_filaments]

theorem findById_create {st : DB} {input : CreateConsumptionInput}
    (hfresh : ∀ e ∈ st.entries, e.id ≠ st.nextEntryId)
    (hfil : ∃ f ∈ st.filaments, f.id = input.filament_id) :
    ConsumptionRepository.findById (ConsumptionRepository.create st input) st.nextEntryId =
      some { id := st.nextEntryId, filament_id := input.filament_id,
             amount_g := input.amount_g } := by
  unfold ConsumptionRepository.findById
  rw [create_entries, List.find?_append]
  have h1 : st.entries.find? (fun e => e.id == st.nextEntryId) = none := by
    rw [List.find?_eq_none]
    intro x hx
    simpa using hfresh x hx
  rw [h1]
  have h2 : List.find? (fun e : ConsumptionEntry => e.id == st.nextEntryId)
      [{ id := st.nextEntryId, filament_id := input.filament_id, amount_g := input.amount_g }] =
      some { id := st.nextEntryId, filament_id := input.filament_id,
             amount_g := input.amount_g } := by
    simp [List.find?]
  rw [Option.none_or, h2]
  dsimp only
  obtain ⟨f, hfm, hfid⟩ := hfil
  have hany : (ConsumptionRepository.create st input).filaments.any
      (fun g => g.id == input.filament_id) = true := by
    rw [create_filaments]
    exact List.any_eq_true.mpr ⟨f, hfm, by simp [hfid]⟩
  rw [if_pos hany]

theorem deduct_restore_weights (st : DB) (fid : Nat) (a : Int) (p : Spool) (rest : List Spool)
    (hnodup : (st.spools.map (fun s => s.id)).Nodup)
    (hcand : ConsumptionRepository.candidateSpools st fid = p :: rest)
    (hge : a ≤ p.weight_g)
    (hactive : 0 < p.weight_g - a - p.empty_weight_g.getD 0)
    (hlight : ∀ s ∈ SpoolRepository.findByFilamentId st fid false,
        s ≠ p → p.weight_g - a < s.weight_g) :
    (ConsumptionRepository.restoreToFilament
        (ConsumptionRepository.deductFromFilament st fid a) fid a).spools.map
      (fun s => (s.id, s.weight_g)) =
      st.spools.map (fun s => (s.id, s.weight_g)) := by
  have hpcand : p ∈ ConsumptionRepository.candidateSpools st fid := by
    rw [hcand]
    exact List.mem_cons_self p rest
  obtain ⟨hpmem, hpfid, hparch⟩ := mem_candidateSpools hpcand
  have hmax : max 0 (p.weight_g - a) = p.weight_g - a := max_eq_right (sub_nonneg.mpr hge)
  have hded : ConsumptionRepository.deductFromFilament st fid a =
      SpoolRepository.update st (ConsumptionRepository.weightPatch p.id (p.weight_g - a)) := by
    rw [deduct_eq_update_of_sufficient hcand hge, hmax]
  have hst2 : (ConsumptionRepository.deductFromFilament st fid a).spools =
      st.spools.map (fun s => if s.id = p.id then
        SpoolRepository.applyUpdate st.now
          (ConsumptionRepository.weightPatch p.id (p.weight_g - a)) s else s) := by
    rw [hded, update_spools_of_mem ⟨p, hpmem, rfl⟩]
    rfl
  have hp2w : (SpoolRepository.applyUpdate st.now
      (ConsumptionRepository.weightPatch p.id (p.weight_g - a)) p).weight_g =
      p.weight_g - a := rfl
  have hp2id : (SpoolRepository.applyUpdate st.now
      (ConsumptionRepository.weightPatch p.id (p.weight_g - a)) p).id = p.id := rfl
  have hp2fid : (SpoolRepository.applyUpdate st.now
      (ConsumptionRepository.weightPatch p.id (p.weight_g - a)) p).filament_id = fid := hpfid
  have hp2arch : (SpoolRepository.applyUpdate st.now
      (ConsumptionRepository.weightPatch p.id (p.weight_g - a)) p).archived = false := by
    rw [applyUpdate_weightPatch]
    dsimp only
    rw [if_neg (not_le.mpr hactive)]
    exact hparch
  have hp2mem2 : SpoolRepository.applyUpdate st.now
      (ConsumptionRepository.weightPatch p.id (p.weight_g - a)) p ∈
      (ConsumptionRepository.deductFromFilament st fid a).spools := by
    rw [hst2]
    exact List.mem_map.mpr ⟨p, hpmem, by rw [if_pos rfl]⟩
  have hb2 : SpoolRepository.applyUpdate st.now
      (ConsumptionRepository.weightPatch p.id (p.weight_g - a)) p ∈
      SpoolRepository.findByFilamentId (ConsumptionRepository.deductFromFilament st fid a)
        fid false :=
    mem_findByFilamentId.mpr ⟨hp2mem2, hp2fid, hp2arch⟩
  have hmin2 : ∀ s ∈ SpoolRepository.findByFilamentId
      (ConsumptionRepository.deductFromFilament st fid a) fid false,
      s ≠ SpoolRepository.applyUpdate st.now
        (ConsumptionRepository.weightPatch p.id (p.weight_g - a)) p →
      (SpoolRepository.applyUpdate st.now
        (ConsumptionRepository.weightPatch p.id (p.weight_g - a)) p).weight_g < s.weight_g := by
    intro s hsmem hne
    obtain ⟨hsmem2, hsfid, hsarch⟩ := mem_findByFilamentId.mp hsmem
    rw [hst2] at hsmem2
    obtain ⟨t, htmem, hteq⟩ := List.mem_map.mp hsmem2
    by_cases hid : t.id = p.id
    · have htp : t = p := nodup_id_inj hnodup htmem hpmem hid
      rw [if_pos hid, htp] at hteq
      exact absurd hteq.symm hne
    · rw [if_neg hid] at hteq
      have htfind : t ∈ SpoolRepository.findByFilamentId st fid false :=
        mem_findByFilamentId.mpr ⟨htmem, by rw [hteq]; exact hsfid, by rw [hteq]; exact hsarch⟩
      have htnep : t ≠ p := fun he => hid (by rw [he])
      have hlt := hlight t htfind htnep
      rw [hp2w, ← hteq]
      exact hlt
  have hrest := restore_eq_update_of_min (a := a) hb2 hmin2
  rw [hrest, hp2id, hp2w]
  have hsum : p.weight_g - a + a = p.weight_g := by ring
  rw [hsum]
  rw [update_spools_of_mem ⟨SpoolRepository.applyUpdate st.now
    (ConsumptionRepository.weightPatch p.id (p.weight_g - a)) p, hp2mem2, hp2id⟩]
  rw [hst2, List.map_map, List.map_map]
  refine List.map_congr_left (fun s hsmem => ?_)
  by_cases hid : s.id = p.id
  · have hsp : s = p := nodup_id_inj hnodup hsmem hpmem hid
    subst hsp
    simp [Function.comp, ConsumptionRepository.weightPatch, SpoolRepository.applyUpdate]
  · simp [Function.comp, ConsumptionRepository.weightPatch, SpoolRepository.applyUpdate, hid]

/-- Counterexample to C2 as stated: with two used spools (spool 1 at
100 g, most recently updated; spool 2 at 10 g), creating a 30 g entry
deducts from spool 1 (→ 70), but deleting the entry restores the 30 g to
the lightest active spool, spool 2 (→ 40): spool 1 does not return to
its pre-entry weight. -/
theorem create_delete_roundtrip_refuted :
    ((ConsumptionRepository.delete
        (ConsumptionRepository.create twoUsedSpoolsDB { filament_id := 1, amount_g := 30 })
        twoUsedSpoolsDB.nextEntryId).spools.map (fun s => (s.id, s.weight_g)) =
      [(1, 70), (2, 40)]) ∧
    twoUsedSpoolsDB.spools.map (fun s => (s.id, s.weight_g)) = [(1, 100), (2, 10)] ∧
    ¬((ConsumptionRepository.delete
        (ConsumptionRepository.create twoUsedSpoolsDB { filament_id := 1, amount_g := 30 })
        twoUsedSpoolsDB.nextEntryId).spools.map (fun s => (s.id, s.weight_g)) =
      twoUsedSpoolsDB.spools.map (fun s => (s.id, s.weight_g))) := by
  decide

/-- C2 (amended): creating an entry and then deleting it restores every
spool weight exactly, PROVIDED the deduction is fully covered by its
primary target spool, that spool stays non-archived afterwards (its net
remaining stays positive), and it is then strictly the lightest active
spool of the filament — as in the single-active-spool case; the entry
table also returns to its prior state. -/
theorem create_delete_roundtrip (st : DB) (input : CreateConsumptionInput) (p : Spool)
    (rest : List Spool)
    (hnodup : (st.spools.map (fun s => s.id)).Nodup)
    (hfresh : ∀ e ∈ st.entries, e.id ≠ st.nextEntryId)
    (hfil : ∃ f ∈ st.filaments, f.id = input.filament_id)
    (hcand : ConsumptionRepository.candidateSpools st input.filament_id = p :: rest)
    (hge : input.amount_g ≤ p.weight_g)
    (hactive : 0 < p.weight_g - input.amount_g - p.empty_weight_g.getD 0)
    (hlight : ∀ s ∈ SpoolRepository.findByFilamentId st input.filament_id false,
        s ≠ p → p.weight_g - input.amount_g < s.weight_g) :
    ((ConsumptionRepository.delete (ConsumptionRepository.create st input)
        st.nextEntryId).spools.map (fun s => (s.id, s.weight_g)) =
      st.spools.map (fun s => (s.id, s.weight_g))) ∧
    (ConsumptionRepository.delete (ConsumptionRepository.create st input)
        st.nextEntryId).entries = st.entries := by
  have hfind2 := findById_create hfresh hfil
  unfold ConsumptionRepository.delete
  rw [hfind2]
  dsimp only
  constructor
  · exact deduct_restore_weights
      { st with
        entries := st.entries ++
          [{ id := st.nextEntryId, filament_id := input.filament_id,
             amount_g := input.amount_g }],
        nextEntryId := st.nextEntryId + 1 }
      input.filament_id input.amount_g p rest hnodup hcand hge hactive hlight
  · rw [restore_entries, create_entries, List.filter_append]
    have h1 : st.entries.filter (fun e => e.id != st.nextEntryId) = st.entries :=
      List.filter_eq_self.mpr (fun e he => by simpa using hfresh e he)
    have h2 : List.filter (fun e : ConsumptionEntry => e.id != st.nextEntryId)
        [{ id := st.nextEntryId, filament_id := input.filament_id,
           amount_g := input.amount_g }] = [] := by
      simp
    rw [h1, h2, List.append_nil]

/-- Witness for the amended C2: a single active spool of 100 g; a 30 g
entry is created (spool → 70) and deleted (spool → 100), restoring the
state. -/
theorem create_delete_roundtrip_witness :
    ((ConsumptionRepository.delete
        (ConsumptionRepository.create singleSpoolDB { filament_id := 1, amount_g := 30 })
        singleSpoolDB.nextEntryId).spools.map (fun s => (s.id, s.weight_g)) =
      singleSpoolDB.spools.map (fun s => (s.id, s.weight_g))) ∧
    (ConsumptionRepository.delete
        (ConsumptionRepository.create singleSpoolDB { filament_id := 1, amount_g := 30 })
        singleSpoolDB.nextEntryId).entries = singleSpoolDB.entries :=
  create_delete_roundtrip singleSpoolDB { filament_id := 1, amount_g := 30 } soloSpool []
    (by decide) (by decide) ⟨{ id := 1, archived := false }, by decide, rfl⟩ (by decide)
    (by decide) (by decide) (by decide)

end SpoolDB
